import Mathlib

/-!
Shallow embedding of the simulation core of the tetorisu falling-block game
(src/core: board, piece, randomizer, scoring, items, game), together with
theorems checking the specification's claims against it.

Conventions of the embedding:
* JS numbers that hold integral data (coordinates, scores, counts) become
  `Int`/`Nat`; time-valued and accumulator quantities become `ℚ`.
* `Math.random()` is modelled by an explicit stream of choices (`Rng`):
  `Math.floor(random * b)` becomes `takeNat b` (a value `% b`, the exact
  range of the original expression) and `random < chance` becomes
  `takeBool`.  All theorems quantify over every stream.
* Mutating class methods become functions from state to state.
-/

namespace Tetorisu

/-- The seven piece types (types.ts). -/
inductive PieceType
  | I | O | T | S | Z | J | L
  deriving DecidableEq, Repr

inductive RotationDirection
  | clockwise | counterclockwise
  deriving DecidableEq, Repr

/-- Integer (x, y) offset (types.ts `Point`). -/
structure Point where
  x : Int
  y : Int
  deriving DecidableEq, Repr

/-- Per-cell state of an occupied board cell (types.ts `CellState`);
`Option CellState` models `CellState | null`. -/
structure CellState where
  type : PieceType
  isSpecial : Bool
  deriving DecidableEq, Repr

/-- types.ts `ActivePiece`.  `rotation` is one of 0..3 in the source's type
system; the embedding uses `Nat` and carries the bound as a hypothesis where
it matters. -/
structure ActivePiece where
  type : PieceType
  rotation : Nat
  position : Point
  blocks : List Point
  isSpecial : Bool
  specialBlockIndex : Option Nat
  deriving DecidableEq, Repr

structure HeldPiece where
  type : PieceType
  isSpecial : Bool
  deriving DecidableEq, Repr

inductive ItemType
  | bomb | shuffle | freeze | boost
  deriving DecidableEq, Repr

structure ActiveEffects where
  freeze : ℚ
  boost : ℚ
  deriving DecidableEq, Repr

/-- constants.ts board dimensions. -/
def BOARD_WIDTH : Nat := 10
def BOARD_VISIBLE_HEIGHT : Nat := 10
def BOARD_HIDDEN_ROWS : Nat := 2
def BOARD_TOTAL_HEIGHT : Nat := BOARD_VISIBLE_HEIGHT + BOARD_HIDDEN_ROWS

/-- constants.ts `SPAWN_POSITION`. -/
def SPAWN_POSITION : PieceType → Point
  | .I => ⟨3, -1⟩
  | .O => ⟨4, 0⟩
  | .T => ⟨3, 0⟩
  | .J => ⟨3, 0⟩
  | .L => ⟨3, 0⟩
  | .S => ⟨3, 0⟩
  | .Z => ⟨3, 0⟩

/-- constants.ts `TETROMINO_SHAPES`: four rotation states of four block
offsets each. -/
def TETROMINO_SHAPES : PieceType → List (List Point)
  | .I => [[⟨0,1⟩,⟨1,1⟩,⟨2,1⟩,⟨3,1⟩],
           [⟨2,0⟩,⟨2,1⟩,⟨2,2⟩,⟨2,3⟩],
           [⟨0,2⟩,⟨1,2⟩,⟨2,2⟩,⟨3,2⟩],
           [⟨1,0⟩,⟨1,1⟩,⟨1,2⟩,⟨1,3⟩]]
  | .O => [[⟨1,0⟩,⟨2,0⟩,⟨1,1⟩,⟨2,1⟩],
           [⟨1,0⟩,⟨2,0⟩,⟨1,1⟩,⟨2,1⟩],
           [⟨1,0⟩,⟨2,0⟩,⟨1,1⟩,⟨2,1⟩],
           [⟨1,0⟩,⟨2,0⟩,⟨1,1⟩,⟨2,1⟩]]
  | .T => [[⟨1,0⟩,⟨0,1⟩,⟨1,1⟩,⟨2,1⟩],
           [⟨1,0⟩,⟨1,1⟩,⟨2,1⟩,⟨1,2⟩],
           [⟨0,1⟩,⟨1,1⟩,⟨2,1⟩,⟨1,2⟩],
           [⟨1,0⟩,⟨0,1⟩,⟨1,1⟩,⟨1,2⟩]]
  | .J => [[⟨0,0⟩,⟨0,1⟩,⟨1,1⟩,⟨2,1⟩],
           [⟨1,0⟩,⟨2,0⟩,⟨1,1⟩,⟨1,2⟩],
           [⟨0,1⟩,⟨1,1⟩,⟨2,1⟩,⟨2,2⟩],
           [⟨1,0⟩,⟨1,1⟩,⟨0,2⟩,⟨1,2⟩]]
  | .L => [[⟨2,0⟩,⟨0,1⟩,⟨1,1⟩,⟨2,1⟩],
           [⟨1,0⟩,⟨1,1⟩,⟨1,2⟩,⟨2,2⟩],
           [⟨0,1⟩,⟨1,1⟩,⟨2,1⟩,⟨0,2⟩],
           [⟨0,0⟩,⟨1,0⟩,⟨1,1⟩,⟨1,2⟩]]
  | .S => [[⟨1,0⟩,⟨2,0⟩,⟨0,1⟩,⟨1,1⟩],
           [⟨1,0⟩,⟨1,1⟩,⟨2,1⟩,⟨2,2⟩],
           [⟨1,1⟩,⟨2,1⟩,⟨0,2⟩,⟨1,2⟩],
           [⟨0,0⟩,⟨0,1⟩,⟨1,1⟩,⟨1,2⟩]]
  | .Z => [[⟨0,0⟩,⟨1,0⟩,⟨1,1⟩,⟨2,1⟩],
           [⟨2,0⟩,⟨1,1⟩,⟨2,1⟩,⟨1,2⟩],
           [⟨0,1⟩,⟨1,1⟩,⟨1,2⟩,⟨2,2⟩],
           [⟨1,0⟩,⟨0,1⟩,⟨1,1⟩,⟨0,2⟩]]

/-- constants.ts `standardTests` wall-kick table (shared by T/S/Z/J/L),
keyed by (fromRotation, toRotation); missing keys are `none`. -/
def standardTests : Nat → Nat → Option (List Point)
  | 0, 1 => some [⟨0,0⟩,⟨-1,0⟩,⟨-1,1⟩,⟨0,-2⟩,⟨-1,-2⟩]
  | 1, 0 => some [⟨0,0⟩,⟨1,0⟩,⟨1,-1⟩,⟨0,2⟩,⟨1,2⟩]
  | 1, 2 => some [⟨0,0⟩,⟨1,0⟩,⟨1,-1⟩,⟨0,2⟩,⟨1,2⟩]
  | 2, 1 => some [⟨0,0⟩,⟨-1,0⟩,⟨-1,1⟩,⟨0,-2⟩,⟨-1,-2⟩]
  | 2, 3 => some [⟨0,0⟩,⟨1,0⟩,⟨1,1⟩,⟨0,-2⟩,⟨1,-2⟩]
  | 3, 2 => some [⟨0,0⟩,⟨-1,0⟩,⟨-1,-1⟩,⟨0,2⟩,⟨-1,2⟩]
  | 3, 0 => some [⟨0,0⟩,⟨-1,0⟩,⟨-1,-1⟩,⟨0,2⟩,⟨-1,2⟩]
  | 0, 3 => some [⟨0,0⟩,⟨1,0⟩,⟨1,1⟩,⟨0,-2⟩,⟨1,-2⟩]
  | _, _ => none

/-- constants.ts `iPieceTests` wall-kick table for the I piece. -/
def iPieceTests : Nat → Nat → Option (List Point)
  | 0, 1 => some [⟨0,0⟩,⟨-2,0⟩,⟨1,0⟩,⟨-2,-1⟩,⟨1,2⟩]
  | 1, 0 => some [⟨0,0⟩,⟨2,0⟩,⟨-1,0⟩,⟨2,1⟩,⟨-1,-2⟩]
  | 1, 2 => some [⟨0,0⟩,⟨-1,0⟩,⟨2,0⟩,⟨-1,2⟩,⟨2,-1⟩]
  | 2, 1 => some [⟨0,0⟩,⟨1,0⟩,⟨-2,0⟩,⟨1,-2⟩,⟨-2,1⟩]
  | 2, 3 => some [⟨0,0⟩,⟨2,0⟩,⟨-1,0⟩,⟨2,1⟩,⟨-1,-2⟩]
  | 3, 2 => some [⟨0,0⟩,⟨-2,0⟩,⟨1,0⟩,⟨-2,-1⟩,⟨1,2⟩]
  | 3, 0 => some [⟨0,0⟩,⟨1,0⟩,⟨-2,0⟩,⟨1,-2⟩,⟨-2,1⟩]
  | 0, 3 => some [⟨0,0⟩,⟨-1,0⟩,⟨2,0⟩,⟨-1,2⟩,⟨2,-1⟩]
  | _, _ => none

/-- constants.ts `oPieceTests`: the O piece only ever tests (0,0). -/
def oPieceTests : Nat → Nat → Option (List Point)
  | 0, 1 => some [⟨0,0⟩]
  | 1, 0 => some [⟨0,0⟩]
  | 1, 2 => some [⟨0,0⟩]
  | 2, 1 => some [⟨0,0⟩]
  | 2, 3 => some [⟨0,0⟩]
  | 3, 2 => some [⟨0,0⟩]
  | 3, 0 => some [⟨0,0⟩]
  | 0, 3 => some [⟨0,0⟩]
  | _, _ => none

/-- constants.ts `SRS_KICK_TABLE`. -/
def SRS_KICK_TABLE : PieceType → Nat → Nat → Option (List Point)
  | .I => iPieceTests
  | .O => oPieceTests
  | .T => standardTests
  | .J => standardTests
  | .L => standardTests
  | .S => standardTests
  | .Z => standardTests

/-- constants.ts `SCORE_TABLE` (with the caller's `?? 0` for other keys). -/
def SCORE_TABLE : Nat → Nat
  | 0 => 0
  | 1 => 100
  | 2 => 300
  | 3 => 500
  | 4 => 800
  | _ => 0

/-- rules.ts `RulesConfig`. -/
structure RulesConfig where
  gravityPerSecond : ℚ
  lockDelayMs : ℚ
  dasMs : ℚ
  arrMs : ℚ
  softDropMultiplier : ℚ
  specialPieceChance : ℚ
  deriving DecidableEq, Repr

/-- rules.ts `defaultRules`. -/
def defaultRules : RulesConfig :=
  { gravityPerSecond := 6/5
    lockDelayMs := 500
    dasMs := 150
    arrMs := 40
    softDropMultiplier := 16
    specialPieceChance := 1/20 }

/-- piece.ts `rotateRotation`. -/
def rotateRotation (rotation : Nat) (direction : RotationDirection) : Nat :=
  match direction with
  | .clockwise => (rotation + 1) % 4
  | .counterclockwise => (rotation + 3) % 4

/-- piece.ts `createActivePiece`.  The source resolves an absent
`specialBlockIndex` option by drawing `Math.floor(Math.random() * 4)`;
in the embedding the callers that draw (spawn and hold) pass the drawn
index in `sbi`, and `rotatePiece` passes the piece's existing index. -/
def createActivePiece (t : PieceType) (rotation : Nat) (position : Point)
    (isSpecial : Bool) (sbi : Option Nat) : ActivePiece :=
  { type := t
    rotation := rotation
    position := position
    blocks := (TETROMINO_SHAPES t).getD rotation []
    isSpecial := isSpecial
    specialBlockIndex := if isSpecial then sbi else none }

/-- piece.ts `translateBlocks`. -/
def translateBlocks (piece : ActivePiece) (offset : Option Point) : List Point :=
  let dx := (offset.getD ⟨0, 0⟩).x
  let dy := (offset.getD ⟨0, 0⟩).y
  piece.blocks.map fun b => ⟨piece.position.x + b.x + dx, piece.position.y + b.y + dy⟩

/-- piece.ts `getKickTests` (tables default to the single (0,0) test). -/
def getKickTests (t : PieceType) (current next : Nat) : List Point :=
  (SRS_KICK_TABLE t current next).getD [⟨0, 0⟩]

/-- piece.ts `rotatePiece`: the bare rotated piece plus the ordered kick
candidates. -/
def rotatePiece (piece : ActivePiece) (direction : RotationDirection) :
    ActivePiece × List Point :=
  let nextRotation := rotateRotation piece.rotation direction
  (createActivePiece piece.type nextRotation piece.position piece.isSpecial
      piece.specialBlockIndex,
   getKickTests piece.type piece.rotation nextRotation)

/-- piece.ts `movePiece`. -/
def movePiece (piece : ActivePiece) (delta : Point) : ActivePiece :=
  { piece with position := ⟨piece.position.x + delta.x, piece.position.y + delta.y⟩ }

/-- The board grid: `BOARD_TOTAL_HEIGHT` rows of `BOARD_WIDTH` cells,
row 0 at the top (board.ts `grid`). -/
abbrev Grid := List (List (Option CellState))

def emptyRow : List (Option CellState) := List.replicate BOARD_WIDTH none

def emptyGrid : Grid := List.replicate BOARD_TOTAL_HEIGHT emptyRow

/-- board.ts `isOutOfBounds`. -/
def isOutOfBounds (p : Point) : Bool :=
  p.x < 0 || (BOARD_WIDTH : Int) ≤ p.x || (BOARD_TOTAL_HEIGHT : Int) ≤ p.y

/-- Truthiness of `grid[p.y][p.x]` for an in-range point. -/
def cellOccupied (grid : Grid) (p : Point) : Bool :=
  ((grid.getD p.y.toNat []).getD p.x.toNat none).isSome

/-- board.ts `hasCollision`. -/
def hasCollision (grid : Grid) (piece : ActivePiece) (offset : Option Point) : Bool :=
  (translateBlocks piece offset).any fun cell =>
    isOutOfBounds cell || (decide (0 ≤ cell.y) && cellOccupied grid cell)

/-- `row.every(cell => cell !== null)` from board.ts `clearFullLines`. -/
def isFullRow (row : List (Option CellState)) : Bool :=
  row.all fun c => c.isSome

/-- Write one cell of the grid (`this.grid[y][x] = v`). -/
def setCell (grid : Grid) (x y : Nat) (v : Option CellState) : Grid :=
  grid.set y ((grid.getD y []).set x v)

/-- The `for (let y = grid.length - 1; y >= 0; y--)` loop of board.ts
`clearFullLines`: `y1` is the current index plus one.  When row `y` is full
it is spliced out, an empty row is unshifted at the top and the same index
is re-examined; otherwise the scan moves up one row.  The `none` case (an
index beyond the grid) is unreachable from `clearFullLines`. -/
def clearLoop (grid : Grid) (y1 : Nat) (cleared : List Nat) : Grid × List Nat :=
  match y1 with
  | 0 => (grid, cleared)
  | y + 1 =>
    match hrow : grid[y]? with
    | none => (grid, cleared)
    | some row =>
      if hfull : isFullRow row then
        clearLoop (emptyRow :: grid.eraseIdx y) (y + 1) (cleared ++ [y])
      else
        clearLoop grid y cleared
termination_by (grid.countP (fun r => isFullRow r), y1)
decreasing_by
  · apply Prod.Lex.left
    have hy : y < grid.length := (List.getElem?_eq_some.mp hrow).1
    have hrow' : grid[y] = row := by
      have := (List.getElem?_eq_some.mp hrow).2
      simpa using this
    have herase : (grid.eraseIdx y).countP (fun r => isFullRow r) + 1
        = grid.countP (fun r => isFullRow r) := by
      rw [List.eraseIdx_eq_take_drop_succ]
      conv_rhs => rw [← List.take_append_drop y grid,
        List.drop_eq_getElem_cons hy]
      rw [List.countP_append, List.countP_append, List.countP_cons]
      simp [hrow', hfull]
      omega
    have hempty : isFullRow emptyRow = false := by decide
    rw [List.countP_cons]
    simp [hempty]
    omega
  · apply Prod.Lex.right
    omega

/-- board.ts `clearFullLines`: returns the new grid and the cleared row
indexes (as recorded by the loop). -/
def clearFullLines (grid : Grid) : Grid × List Nat :=
  clearLoop grid grid.length []

/-- board.ts `LockResult`, extended with the resulting grid (the source
mutates `this.grid` in place). -/
structure LockResult where
  grid : Grid
  linesCleared : Nat
  clearedRows : List Nat
  specialMultiplierApplied : Bool
  deriving DecidableEq, Repr

/-- The `absoluteBlocks.forEach` writing pass of board.ts `lockPiece`:
blocks with `y < 0` are simply not recorded. -/
def writtenGrid (grid : Grid) (piece : ActivePiece) : Grid :=
  (translateBlocks piece none).enum.foldl (fun g p =>
      if p.2.y < 0 then g
      else setCell g p.2.x.toNat p.2.y.toNat
        (some ⟨piece.type,
          piece.isSpecial && decide (piece.specialBlockIndex = some p.1)⟩)) grid

/-- The `specialYRows` set collected by board.ts `lockPiece` (rows with
`y ≥ 0` that received the designated special block). -/
def specialYRows (piece : ActivePiece) : List Int :=
  ((translateBlocks piece none).enum.filter fun p =>
      decide (0 ≤ p.2.y) && piece.isSpecial &&
        decide (piece.specialBlockIndex = some p.1)).map fun p => p.2.y

/-- board.ts `lockPiece`: write every block with `y ≥ 0` into the grid
(recording the rows that received the designated special block), then clear
full rows.  `specialMultiplierApplied` is the source's
`linesCleared > 0 && specialYRows.size > 0`. -/
def lockPiece (grid : Grid) (piece : ActivePiece) : LockResult :=
  let written := writtenGrid grid piece
  let cleared := clearFullLines written
  { grid := cleared.1
    linesCleared := cleared.2.length
    clearedRows := cleared.2
    specialMultiplierApplied :=
      decide (0 < cleared.2.length) && !(specialYRows piece).isEmpty }

/-- Modelled from the spec: `Board.clearRows` is absent from the provided
sources (only its caller `Game.useItem` appears).  Spec: "force-clears
specific rows regardless of fullness (used by the bomb item), shifting
remaining rows down and inserting empty rows at the top; returns count
actually cleared", where a row already fully empty does not count ("clears
both (or fewer if one was already fully empty)").  The model removes each
targeted in-range row that has at least one occupied cell, inserts that many
empty rows at the top, and returns that count. -/
def clearRows (grid : Grid) (rows : List Nat) : Grid × Nat :=
  let isTarget : Nat → Bool := fun y =>
    rows.contains y && decide (y < grid.length) &&
      (grid.getD y []).any fun c => c.isSome
  let kept := ((List.range grid.length).filter fun y => !isTarget y).map
    fun y => grid.getD y []
  let cleared := ((List.range grid.length).filter isTarget).length
  (List.replicate cleared emptyRow ++ kept, cleared)

/-- An explicit stream of random choices standing in for `Math.random()`:
`nats` drives `Math.floor(random * b)` draws and `bools` drives
`random < chance` tests; `idx` is the position in the stream. -/
structure Rng where
  nats : Nat → Nat
  bools : Nat → Bool
  idx : Nat

/-- Draw `Math.floor(Math.random() * bound)`: a value in `[0, bound)`. -/
def Rng.takeNat (r : Rng) (bound : Nat) : Nat × Rng :=
  (r.nats r.idx % bound, { r with idx := r.idx + 1 })

/-- Draw a `Math.random() < chance` test result. -/
def Rng.takeBool (r : Rng) : Bool × Rng :=
  (r.bools r.idx, { r with idx := r.idx + 1 })

/-- `[items[i], items[j]] = [items[j], items[i]]`: exchange two positions
(identity when either index is out of range, which the shuffle never hits). -/
def listSwap {α : Type} (l : List α) (i j : Nat) : List α :=
  match l[i]?, l[j]? with
  | some a, some b => (l.set i b).set j a
  | _, _ => l

/-- The Fisher–Yates loop shared by randomizer.ts `shuffle` and game.ts
`shuffleArray`: for `i` from `length - 1` down to `1`, draw
`j = Math.floor(random * (i + 1))` and swap positions `i` and `j`.
`k` is the current value of `i`. -/
def fyLoop {α : Type} : List α → Nat → Rng → List α × Rng
  | l, 0, r => (l, r)
  | l, k + 1, r =>
    let d := r.takeNat (k + 2)
    fyLoop (listSwap l (k + 1) d.1) k d.2

/-- A full Fisher–Yates shuffle of a list. -/
def shuffleList {α : Type} (l : List α) (r : Rng) : List α × Rng :=
  fyLoop l (l.length - 1) r

/-- randomizer.ts `PIECE_TYPES`. -/
def PIECE_TYPES : List PieceType := [.I, .O, .T, .S, .Z, .J, .L]

/-- Randomizer state: the current bag plus the random stream. -/
structure BagState where
  bag : List PieceType
  rng : Rng

/-- randomizer.ts `next()` with its throw modelled as `Except.error`:
refill the bag (uniform shuffle of all seven types) when it is empty, then
`pop()` the last element; an empty pop is the `throw new Error(...)`. -/
def bagNextE (s : BagState) : Except String (PieceType × BagState) :=
  let refilled :=
    if s.bag.isEmpty then
      let d := shuffleList PIECE_TYPES s.rng
      (d.1, d.2)
    else (s.bag, s.rng)
  match refilled.1.getLast? with
  | none => .error "Failed to draw piece from bag"
  | some p => .ok (p, ⟨refilled.1.dropLast, refilled.2⟩)

/-- Total extraction of `bagNextE`; the error branch is unreachable (see the
no-exceptions theorem) and returns an arbitrary fixed value. -/
def bagNext (s : BagState) : PieceType × BagState :=
  match bagNextE s with
  | .ok v => v
  | .error _ => (.I, s)

/-- Draw `n` consecutive pieces from the randomizer. -/
def bagRun : Nat → BagState → List PieceType × BagState
  | 0, s => ([], s)
  | n + 1, s =>
    let d := bagNext s
    let rest := bagRun n d.2
    (d.1 :: rest.1, rest.2)

/-- scoring.ts `Scoring` (the version with combo tracking, whose methods
`Game` calls).  The snapshot has exactly these fields. -/
structure Scoring where
  score : Nat
  linesCleared : Nat
  level : Nat
  combo : Nat
  maxCombo : Nat
  deriving DecidableEq, Repr

def Scoring.init : Scoring :=
  { score := 0, linesCleared := 0, level := 1, combo := 0, maxCombo := 0 }

/-- scoring.ts `registerLineClear` (state part; the returned
`{awarded, totalScore}` record is unused by the game). -/
def Scoring.registerLineClear (s : Scoring) (count : Nat)
    (specialMultiplier : Bool) (scoreMultiplier : Nat) : Scoring :=
  if count = 0 then { s with combo := 0 }
  else
    let baseScore := SCORE_TABLE count
    let combo := s.combo + 1
    let maxCombo := max s.maxCombo combo
    let comboBonus := if 1 < combo then 50 * (combo - 1) else 0
    let multiplier := if specialMultiplier then 2 else 1
    let awarded := (baseScore * multiplier + comboBonus) * scoreMultiplier
    let linesCleared := s.linesCleared + count
    { score := s.score + awarded
      linesCleared := linesCleared
      level := 1 + linesCleared / 10
      combo := combo
      maxCombo := maxCombo }

/-- scoring.ts `addSoftDropPoints` / `addHardDropPoints` / `addBonus`:
all add `points` to the score when positive. -/
def Scoring.addPoints (s : Scoring) (points : Nat) : Scoring :=
  if points = 0 then s else { s with score := s.score + points }

/-- items.ts `ITEM_TYPES`. -/
def ITEM_TYPES : List ItemType := [.bomb, .shuffle, .freeze, .boost]

/-- items.ts `EFFECT_DURATIONS`. -/
def EFFECT_DURATION_FREEZE : ℚ := 10
def EFFECT_DURATION_BOOST : ℚ := 12

/-- game.ts `GameEvent`. -/
inductive GameEvent
  | spawn (piece : ActivePiece)
  | lock (linesCleared : Nat) (specialMultiplier : Bool)
  | gameOver
  deriving DecidableEq, Repr

def GameEvent.isLock : GameEvent → Bool
  | .lock _ _ => true
  | _ => false

/-- game.ts `Game`'s private state (board, randomizer bag, scoring, queue and
flags), plus the explicit random stream. -/
structure Game where
  board : Grid
  bag : List PieceType
  scoring : Scoring
  rules : RulesConfig
  nextQueue : List PieceType
  activePiece : Option ActivePiece
  holdPiece : Option HeldPiece
  holdUsed : Bool
  isPaused : Bool
  isGameOver : Bool
  softDropActive : Bool
  fallAccumulator : ℚ
  softDropScoreAccumulator : ℚ
  lockTimerMs : Option ℚ
  pendingEvents : List GameEvent
  inventory : List ItemType
  effects : ActiveEffects
  rng : Rng

/-- game.ts tuning constants. -/
def SOFT_DROP_REWARD_INTERVAL : ℚ := 1/2
def SOFT_DROP_REWARD_POINTS : Nat := 50
def HARD_DROP_REWARD_POINTS : Nat := 100
def ITEM_BONUS_POINTS : Nat := 200
def ITEM_MAX_SLOTS : Nat := 3
def SCORE_SPEED_INTERVAL : Nat := 1000
def SCORE_SPEED_STEP : ℚ := 3/100
def PREVIEW_COUNT : Nat := 2

/-- game.ts `GameViewState` (the immutable snapshot; `stats` is the scoring
snapshot, which has exactly the `Scoring` fields). -/
structure GameViewState where
  board : Grid
  activePiece : Option ActivePiece
  nextQueue : List PieceType
  holdPiece : Option HeldPiece
  inventory : List ItemType
  effects : ActiveEffects
  stats : Scoring
  isPaused : Bool
  isGameOver : Bool
  deriving DecidableEq, Repr

structure GameTickResult where
  state : GameViewState
  events : List GameEvent
  deriving DecidableEq, Repr

/-- game.ts `getState`. -/
def Game.getState (g : Game) : GameViewState :=
  { board := g.board
    activePiece := g.activePiece
    nextQueue := g.nextQueue.take PREVIEW_COUNT
    holdPiece := g.holdPiece
    inventory := g.inventory
    effects := g.effects
    stats := g.scoring
    isPaused := g.isPaused
    isGameOver := g.isGameOver }

/-- One `this.nextQueue.push(this.randomizer.next())` step. -/
def Game.pushNext (g : Game) : Game :=
  let d := bagNext ⟨g.bag, g.rng⟩
  { g with nextQueue := g.nextQueue ++ [d.1], bag := d.2.bag, rng := d.2.rng }

/-- The body of game.ts `ensureQueue`, unrolled on the number of missing
entries: each push lengthens the queue by exactly one, so the
`while (length < target)` loop runs `target - length` times. -/
def Game.ensureQueueAux : Game → Nat → Game
  | g, 0 => g
  | g, n + 1 => Game.ensureQueueAux g.pushNext n

/-- game.ts `ensureQueue`. -/
def Game.ensureQueue (g : Game) (target : Nat) : Game :=
  Game.ensureQueueAux g (target - g.nextQueue.length)

/-- game.ts `refreshLockDelay`: restart a running lock timer when the piece
is resting on an obstruction. -/
def Game.refreshLockDelay (g : Game) : Game :=
  match g.lockTimerMs, g.activePiece with
  | some _, some p =>
    if hasCollision g.board p (some ⟨0, 1⟩) then { g with lockTimerMs := some 0 }
    else g
  | _, _ => g

/-- game.ts `beginLockDelay`. -/
def Game.beginLockDelay (g : Game) (force : Bool) : Game :=
  if g.lockTimerMs = none ∨ force then { g with lockTimerMs := some 0 } else g

/-- game.ts `tryMove`. -/
def Game.tryMove (g : Game) (delta : Point) (resetAccumulator : Bool) :
    Bool × Game :=
  match g.activePiece with
  | none => (false, g)
  | some p =>
    let candidate := movePiece p delta
    if hasCollision g.board candidate none then (false, g)
    else
      let g1 := { g with activePiece := some candidate }
      let g2 := if resetAccumulator then { g1 with fallAccumulator := 0 } else g1
      let g3 := if delta.x ≠ 0 ∨ delta.y < 0 then g2.refreshLockDelay else g2
      (true, g3)

/-- game.ts `awardRandomItem`: cap at three slots, then push a uniformly
chosen item (`ITEM_TYPES[Math.floor(random * 4)]`, always in range). -/
def Game.awardRandomItem (g : Game) : Game :=
  if ITEM_MAX_SLOTS ≤ g.inventory.length then g
  else
    let d := g.rng.takeNat ITEM_TYPES.length
    match ITEM_TYPES[d.1]? with
    | none => { g with rng := d.2 }
    | some item => { g with inventory := g.inventory ++ [item], rng := d.2 }

/-- Draw the special flag and (when special) the special block index for a
freshly spawned piece, as game.ts `spawnNextPiece`/`hold` do via
`Math.random() < specialPieceChance` and piece.ts's
`Math.floor(Math.random() * blocks.length)` (blocks.length is 4). -/
def drawSpawnPiece (t : PieceType) (isSpecial : Bool)
    (r : Rng) : ActivePiece × Rng :=
  let resolved :=
    if isSpecial then
      let d := r.takeNat 4
      (some d.1, d.2)
    else (none, r)
  (createActivePiece t 0 (SPAWN_POSITION t) isSpecial resolved.1, resolved.2)

/-- game.ts `spawnNextPiece`. -/
def Game.spawnNextPiece (g : Game) : Bool × Game :=
  let g1 := g.ensureQueue (PREVIEW_COUNT + 1)
  match g1.nextQueue with
  | [] => (false, g1)
  | t :: rest =>
    let g2 := { g1 with nextQueue := rest }
    let db := g2.rng.takeBool
    let dp := drawSpawnPiece t db.1 db.2
    let g3 := { g2 with rng := dp.2 }
    if hasCollision g3.board dp.1 none then
      (false, { g3 with
                activePiece := none
                isGameOver := true
                pendingEvents := g3.pendingEvents ++ [.gameOver] })
    else
      (true, ({ g3 with
                activePiece := some dp.1
                pendingEvents := g3.pendingEvents ++ [.spawn dp.1]
              } : Game).ensureQueue (PREVIEW_COUNT + 1))

/-- game.ts `lockActivePiece`. -/
def Game.lockActivePiece (g : Game) : Game :=
  match g.activePiece with
  | none => g
  | some piece =>
    let lockResult := lockPiece g.board piece
    let g1 := { g with
                board := lockResult.grid
                activePiece := none
                lockTimerMs := none
                fallAccumulator := 0
                holdUsed := false }
    let scoreMultiplier : Nat := if (0:ℚ) < g1.effects.boost then 2 else 1
    let newScoring := g1.scoring.registerLineClear lockResult.linesCleared
      lockResult.specialMultiplierApplied scoreMultiplier
    let g2 := { g1 with scoring := newScoring }
    let g3 := if 0 < lockResult.linesCleared ∧ lockResult.specialMultiplierApplied
      then g2.awardRandomItem else g2
    let lockEvent := GameEvent.lock lockResult.linesCleared
      lockResult.specialMultiplierApplied
    let g4 := { g3 with pendingEvents := g3.pendingEvents ++ [lockEvent] }
    let sp := g4.spawnNextPiece
    if sp.1 then sp.2
    else { sp.2 with
           isGameOver := true
           pendingEvents := sp.2.pendingEvents ++ [.gameOver] }

/-- The `while (this.fallAccumulator >= 1)` loop of game.ts
`advanceGravity`: try one downward move (with the accumulator reset on
success); on failure start the lock delay and stop; on success subtract one
and re-test.  Terminates because a successful move leaves the accumulator at
`0 - 1 = -1`. -/
def Game.gravityLoop (g : Game) : Game :=
  if h : (1:ℚ) ≤ g.fallAccumulator then
    match hm : g.tryMove ⟨0, 1⟩ true with
    | (false, g2) => g2.beginLockDelay false
    | (true, g2) => Game.gravityLoop { g2 with fallAccumulator := g2.fallAccumulator - 1 }
  else g
termination_by (⌊g.fallAccumulator⌋).toNat
decreasing_by
  have hacc : g2.fallAccumulator = 0 := by
    unfold Game.tryMove at hm
    cases hap : g.activePiece with
    | none => rw [hap] at hm; simp at hm
    | some p =>
      rw [hap] at hm
      simp only at hm
      by_cases hc : hasCollision g.board (movePiece p ⟨0, 1⟩) none
      · simp [hc] at hm
      · simp [hc, Game.refreshLockDelay] at hm
        rw [← hm]
  show (⌊g2.fallAccumulator - 1⌋).toNat < (⌊g.fallAccumulator⌋).toNat
  rw [hacc]
  have h1 : ⌊(0:ℚ) - 1⌋ = -1 := by norm_num
  have h2 : (1:ℤ) ≤ ⌊g.fallAccumulator⌋ := Int.le_floor.mpr (by exact_mod_cast h)
  rw [h1]
  omega

/-- game.ts `advanceGravity`. -/
def Game.advanceGravity (g : Game) (deltaSeconds : ℚ) : Game :=
  let g1 := match g.activePiece with
    | none => g.spawnNextPiece.2
    | some _ => g
  match g1.activePiece with
  | none => g1
  | some _ =>
    let levelMultiplier : ℚ := 1 + ((g1.scoring.level : ℚ) - 1) * (8/100)
    let scoreSteps : Nat := g1.scoring.score / SCORE_SPEED_INTERVAL
    let scoreMultiplier : ℚ := 1 + (scoreSteps : ℚ) * SCORE_SPEED_STEP
    let freezeMultiplier : ℚ := if 0 < g1.effects.freeze then 35/100 else 1
    let gravityRate := g1.rules.gravityPerSecond *
      (if g1.softDropActive then g1.rules.softDropMultiplier else 1) *
      levelMultiplier * scoreMultiplier * freezeMultiplier
    Game.gravityLoop
      { g1 with fallAccumulator := g1.fallAccumulator + gravityRate * deltaSeconds }

/-- game.ts `processLockDelay`. -/
def Game.processLockDelay (g : Game) (deltaSeconds : ℚ) : Game :=
  match g.activePiece with
  | none => g
  | some p =>
    if hasCollision g.board p (some ⟨0, 1⟩) then
      match g.lockTimerMs with
      | none => { g with lockTimerMs := some 0 }
      | some t =>
        let t1 := t + deltaSeconds * 1000
        let g1 := { g with lockTimerMs := some t1 }
        if g.rules.lockDelayMs ≤ t1 then g1.lockActivePiece else g1
    else { g with lockTimerMs := none }

/-- The `while (accumulator >= SOFT_DROP_REWARD_INTERVAL)` loop of game.ts
`updateSoftDropBonus`: award 50 points per half-second boundary crossed,
keeping the remainder. -/
def softDropLoop (s : Scoring) (acc : ℚ) : Scoring × ℚ :=
  if h : SOFT_DROP_REWARD_INTERVAL ≤ acc then
    softDropLoop (s.addPoints SOFT_DROP_REWARD_POINTS)
      (acc - SOFT_DROP_REWARD_INTERVAL)
  else (s, acc)
termination_by (⌊2 * acc⌋).toNat
decreasing_by
  have hexp : (2:ℚ) * (acc - SOFT_DROP_REWARD_INTERVAL) = 2 * acc - 1 := by
    unfold SOFT_DROP_REWARD_INTERVAL
    ring
  have h2 : (1:ℚ) ≤ 2 * acc := by
    unfold SOFT_DROP_REWARD_INTERVAL at h
    linarith
  have hfl : ⌊(2:ℚ) * acc - 1⌋ = ⌊(2:ℚ) * acc⌋ - 1 := by
    have := Int.floor_sub_int ((2:ℚ) * acc) 1
    simpa using this
  have hge : (1:ℤ) ≤ ⌊(2:ℚ) * acc⌋ := Int.le_floor.mpr (by exact_mod_cast h2)
  show (⌊(2:ℚ) * (acc - SOFT_DROP_REWARD_INTERVAL)⌋).toNat < (⌊(2:ℚ) * acc⌋).toNat
  rw [hexp, hfl]
  omega

/-- game.ts `updateSoftDropBonus`. -/
def Game.updateSoftDropBonus (g : Game) (deltaSeconds : ℚ) : Game :=
  if !g.softDropActive ∨ g.activePiece = none then
    { g with softDropScoreAccumulator := 0 }
  else
    let d := softDropLoop g.scoring (g.softDropScoreAccumulator + deltaSeconds)
    { g with scoring := d.1, softDropScoreAccumulator := d.2 }

/-- game.ts `updateActiveEffects`: decay each active effect toward zero. -/
def Game.updateActiveEffects (g : Game) (deltaSeconds : ℚ) : Game :=
  { g with effects :=
    { freeze := if 0 < g.effects.freeze then max 0 (g.effects.freeze - deltaSeconds)
                else g.effects.freeze
      boost := if 0 < g.effects.boost then max 0 (g.effects.boost - deltaSeconds)
               else g.effects.boost } }

/-- game.ts `tick`: run the four simulation stages unless paused or
game-over, then return the snapshot and the drained event queue. -/
def Game.tick (g : Game) (deltaSeconds : ℚ) : GameTickResult × Game :=
  let g1 :=
    if !g.isPaused ∧ !g.isGameOver then
      (((g.updateActiveEffects deltaSeconds).updateSoftDropBonus deltaSeconds
        ).advanceGravity deltaSeconds).processLockDelay deltaSeconds
    else g
  ({ state := g1.getState, events := g1.pendingEvents },
   { g1 with pendingEvents := [] })

/-- game.ts `togglePause`. -/
def Game.togglePause (g : Game) : Game :=
  { g with isPaused := !g.isPaused }

/-- game.ts `setSoftDrop`. -/
def Game.setSoftDrop (g : Game) (active : Bool) : Game :=
  if active then { g with softDropActive := active }
  else { g with softDropActive := active, softDropScoreAccumulator := 0 }

/-- game.ts `moveHorizontal`. -/
def Game.moveHorizontal (g : Game) (direction : Int) : Bool × Game :=
  g.tryMove ⟨direction, 0⟩ false

/-- game.ts `softDropStep`. -/
def Game.softDropStep (g : Game) : Bool × Game :=
  match g.activePiece with
  | none => (false, g)
  | some _ =>
    let d := g.tryMove ⟨0, 1⟩ true
    if d.1 then d else (false, d.2.beginLockDelay false)

/-- The kick-candidate loop of game.ts `rotate`: the first offset whose
resulting position is collision-free yields the new piece. -/
def findKick (board : Grid) (rotated : ActivePiece) :
    List Point → Option ActivePiece
  | [] => none
  | k :: rest =>
    let candidate := movePiece rotated k
    if hasCollision board candidate none then findKick board rotated rest
    else some candidate

/-- game.ts `rotate`. -/
def Game.rotate (g : Game) (direction : RotationDirection) : Bool × Game :=
  match g.activePiece with
  | none => (false, g)
  | some p =>
    let rk := rotatePiece p direction
    match findKick g.board rk.1 rk.2 with
    | some candidate =>
      (true, ({ g with activePiece := some candidate } : Game).refreshLockDelay)
    | none => (false, g)

/-- game.ts `hold`. -/
def Game.hold (g : Game) : Bool × Game :=
  match g.activePiece with
  | none => (false, g)
  | some current =>
    if g.holdUsed then (false, g)
    else
      let g1 := { g with
                  holdUsed := true
                  activePiece := none
                  lockTimerMs := none
                  fallAccumulator := 0 }
      match g.holdPiece with
      | some held =>
        let dp := drawSpawnPiece held.type held.isSpecial g1.rng
        let g2 := { g1 with rng := dp.2 }
        if hasCollision g2.board dp.1 none then
          (false, { g2 with
                    isGameOver := true
                    pendingEvents := g2.pendingEvents ++ [.gameOver] })
        else
          (true, { g2 with
                   activePiece := some dp.1
                   holdPiece := some ⟨current.type, current.isSpecial⟩ })
      | none =>
        ({ g1 with holdPiece := some ⟨current.type, current.isSpecial⟩ } : Game
          ).spawnNextPiece

/-- The `while (this.tryMove({x:0,y:1}, {resetAccumulator:true})) dropped += 1`
loop of game.ts `hardDrop`, on explicit fuel.  For any piece whose blocks
come from the shape table the loop exits well before the fuel (the board
floor is at y = 12 and block offsets are at most 3) — the fuel only makes
the function total on arbitrary states. -/
def Game.hardDropLoop : Game → Nat → Nat → Nat × Game
  | g, dropped, 0 => (dropped, g)
  | g, dropped, fuel + 1 =>
    let d := g.tryMove ⟨0, 1⟩ true
    if d.1 then Game.hardDropLoop d.2 (dropped + 1) fuel
    else (dropped, d.2)

/-- game.ts `hardDrop`. -/
def Game.hardDrop (g : Game) : Nat × Game :=
  let fuel := match g.activePiece with
    | none => 1
    | some p => ((BOARD_TOTAL_HEIGHT : Int) + 4 - p.position.y).toNat + 1
  let d := Game.hardDropLoop g 0 fuel
  let g1 := if 0 < d.1
    then { d.2 with scoring := d.2.scoring.addPoints HARD_DROP_REWARD_POINTS }
    else d.2
  (d.1, g1.beginLockDelay true)

/-- game.ts `useItem`. -/
def Game.useItem (g : Game) (slotIndex : Int) : Bool × Game :=
  if slotIndex < 0 ∨ (g.inventory.length : Int) ≤ slotIndex then (false, g)
  else
    match g.inventory[slotIndex.toNat]? with
    | none => (false, g)
    | some item =>
      let g1 := { g with inventory := g.inventory.eraseIdx slotIndex.toNat }
      match item with
      | .bomb =>
        let d := clearRows g1.board [BOARD_TOTAL_HEIGHT - 1, BOARD_TOTAL_HEIGHT - 2]
        let g2 := { g1 with board := d.1 }
        (true, if 0 < d.2
          then { g2 with scoring := g2.scoring.addPoints (d.2 * ITEM_BONUS_POINTS) }
          else g2)
      | .shuffle =>
        let d := shuffleList g1.nextQueue g1.rng
        (true, { g1 with
                 nextQueue := d.1
                 rng := d.2
                 scoring := g1.scoring.addPoints ITEM_BONUS_POINTS })
      | .freeze =>
        (true, { g1 with effects := { g1.effects with freeze := EFFECT_DURATION_FREEZE } })
      | .boost =>
        (true, { g1 with effects := { g1.effects with boost := EFFECT_DURATION_BOOST } })

/-- game.ts `reset` for a given rules configuration and random stream:
reinitialize everything, fill the preview queue and spawn the first piece. -/
def Game.resetWith (rules : RulesConfig) (r : Rng) : Game :=
  (({ board := emptyGrid
      bag := []
      scoring := Scoring.init
      rules := rules
      nextQueue := []
      activePiece := none
      holdPiece := none
      holdUsed := false
      isPaused := false
      isGameOver := false
      softDropActive := false
      fallAccumulator := 0
      softDropScoreAccumulator := 0
      lockTimerMs := none
      pendingEvents := []
      inventory := []
      effects := ⟨0, 0⟩
      rng := r } : Game).ensureQueue (PREVIEW_COUNT + 1)).spawnNextPiece.2

/-- game.ts `reset` on an existing instance (rules kept, all state rebuilt;
the ambient random source continues from the current stream position). -/
def Game.reset (g : Game) : Game :=
  Game.resetWith g.rules g.rng

/-! Concrete states used to witness the theorems below. -/

/-- A fixed random stream (all draws zero / false). -/
def demoRng : Rng := ⟨fun _ => 0, fun _ => false, 0⟩

/-- A board row occupied exactly at the listed x coordinates. -/
def mkRow (occ : List Nat) : List (Option CellState) :=
  (List.range BOARD_WIDTH).map fun x =>
    if occ.contains x then some ⟨.T, false⟩ else none

/-- A grid that maps each listed (rowIndex, row) pair onto the empty grid. -/
def mkGrid (rows : List (Nat × List (Option CellState))) : Grid :=
  (List.range BOARD_TOTAL_HEIGHT).map fun y =>
    match (rows.find? fun p => p.1 = y) with
    | some p => p.2
    | none => emptyRow

/-- A non-special T piece at its spawn position. -/
def demoT : ActivePiece := createActivePiece .T 0 ⟨3, 0⟩ false none

/-- A running game: empty board, T piece at spawn, fresh scoring. -/
def demoBase : Game :=
  { board := emptyGrid
    bag := []
    scoring := Scoring.init
    rules := defaultRules
    nextQueue := [.T, .T, .T]
    activePiece := some demoT
    holdPiece := none
    holdUsed := false
    isPaused := false
    isGameOver := false
    softDropActive := false
    fallAccumulator := 0
    softDropScoreAccumulator := 0
    lockTimerMs := none
    pendingEvents := []
    inventory := []
    effects := ⟨0, 0⟩
    rng := demoRng }

/-- Bomb-item demo: one bomb in the inventory, one occupied cell in the
bottom row. -/
def demoBomb : Game :=
  { demoBase with
    inventory := [.bomb]
    board := mkGrid [(11, mkRow [0])] }

/-- A plain O piece above the bottom-row gap. -/
def demoO1 : ActivePiece := createActivePiece .O 0 ⟨4, 10⟩ false none

/-- One-line-clear demo: bottom row full except columns 5 and 6, O piece
directly above them. -/
def demoOneLine : Game :=
  { demoBase with
    board := mkGrid [(11, mkRow [0, 1, 2, 3, 4, 7, 8, 9])]
    activePiece := some demoO1 }

/-- A vertical I piece filling column 2 of rows 8–11. -/
def demoI4 : ActivePiece := createActivePiece .I 1 ⟨0, 8⟩ false none

/-- Four-line-clear demo: rows 8–11 full except column 2, vertical I piece
filling that column. -/
def demoFourLines : Game :=
  { demoBase with
    board := mkGrid [(8, mkRow [0, 1, 3, 4, 5, 6, 7, 8, 9]),
                     (9, mkRow [0, 1, 3, 4, 5, 6, 7, 8, 9]),
                     (10, mkRow [0, 1, 3, 4, 5, 6, 7, 8, 9]),
                     (11, mkRow [0, 1, 3, 4, 5, 6, 7, 8, 9])]
    activePiece := some demoI4 }

/-- Hold-collision demo: a held O piece whose spawn cells are blocked. -/
def demoHoldBlocked : Game :=
  { demoBase with
    holdPiece := some ⟨.O, false⟩
    board := mkGrid [(0, mkRow [5])] }

/-- A paused game with a pending event. -/
def demoPaused : Game :=
  { demoBase with isPaused := true, pendingEvents := [.gameOver] }

/-- A T piece mid-board, below the hidden rows. -/
def demoTmid : ActivePiece := createActivePiece .T 0 ⟨3, 5⟩ false none

/-- A game whose active piece is walled in: every board cell is occupied
and the piece sits deep enough that every kick candidate stays at y ≥ 0,
so no rotation can succeed. -/
def demoWalled : Game :=
  { demoBase with
    board := List.replicate BOARD_TOTAL_HEIGHT (mkRow (List.range BOARD_WIDTH))
    activePiece := some demoTmid }

/-- A game with no active piece. -/
def demoNoPiece : Game := { demoBase with activePiece := none }

/-- A game whose hold was already used for the current piece. -/
def demoHoldUsed : Game := { demoBase with holdUsed := true }

/-- One-line-clear demo with a special O piece (special block index 2,
which lands in the cleared bottom row) and an ongoing combo. -/
def demoOS : ActivePiece := createActivePiece .O 0 ⟨4, 10⟩ true (some 2)

def demoSpecialLock : Game :=
  { demoBase with
    board := mkGrid [(11, mkRow [0, 1, 2, 3, 4, 7, 8, 9])]
    activePiece := some demoOS
    scoring := { Scoring.init with combo := 1, maxCombo := 1 } }

/-! ### Helper lemmas -/

theorem refreshLockDelay_activePiece (g : Game) :
    g.refreshLockDelay.activePiece = g.activePiece := by
  unfold Game.refreshLockDelay
  split
  · split <;> rfl
  · rfl

theorem refreshLockDelay_board (g : Game) :
    g.refreshLockDelay.board = g.board := by
  unfold Game.refreshLockDelay
  split
  · split <;> rfl
  · rfl

/-! ### C5: collision predicate -/

/-- C5: `hasCollision` returns true exactly when some translated block has
x < 0, x ≥ 10, or y ≥ 12, or lies at an occupied cell with y ≥ 0; blocks
with y < 0 never collide with grid contents. -/
theorem C5_hasCollision_iff (grid : Grid) (piece : ActivePiece)
    (offset : Option Point) :
    hasCollision grid piece offset = true ↔
      ∃ b ∈ translateBlocks piece offset,
        b.x < 0 ∨ (BOARD_WIDTH : Int) ≤ b.x ∨ (BOARD_TOTAL_HEIGHT : Int) ≤ b.y ∨
          (0 ≤ b.y ∧ cellOccupied grid b = true) := by
  unfold hasCollision isOutOfBounds
  rw [List.any_eq_true]
  constructor
  · rintro ⟨b, hb, hor⟩
    refine ⟨b, hb, ?_⟩
    simp only [Bool.or_eq_true, Bool.and_eq_true, decide_eq_true_eq] at hor
    tauto
  · rintro ⟨b, hb, hor⟩
    refine ⟨b, hb, ?_⟩
    simp only [Bool.or_eq_true, Bool.and_eq_true, decide_eq_true_eq]
    tauto

/-! ### C9: tick while paused or game-over -/

/-- C9: when paused or game-over, `tick` changes no simulation state: it
returns the current snapshot together with the drained pending events, and
the only state change is the emptied event queue. -/
theorem C9_tick_paused (g : Game) (d : ℚ)
    (h : g.isPaused = true ∨ g.isGameOver = true) :
    g.tick d = ({ state := g.getState, events := g.pendingEvents },
                { g with pendingEvents := [] }) := by
  unfold Game.tick
  rcases h with h | h <;> simp [h]

/-- Witness for C9 at a concrete paused game. -/
theorem C9_tick_paused_witness :
    demoPaused.tick 1 = ({ state := demoPaused.getState,
                           events := demoPaused.pendingEvents },
                         { demoPaused with pendingEvents := [] }) :=
  C9_tick_paused demoPaused 1 (Or.inl rfl)

/-! ### C2: totality and precondition-violation behaviour -/

theorem listSwap_length {α : Type} (l : List α) (i j : Nat) :
    (listSwap l i j).length = l.length := by
  unfold listSwap
  split <;> simp

theorem fyLoop_length {α : Type} (k : Nat) (l : List α) (r : Rng) :
    ((fyLoop l k r).1).length = l.length := by
  induction k generalizing l r with
  | zero => rfl
  | succ k ih => simp [fyLoop, ih, listSwap_length]

theorem shuffleList_length {α : Type} (l : List α) (r : Rng) :
    ((shuffleList l r).1).length = l.length := by
  unfold shuffleList
  exact fyLoop_length _ _ _

/-- The randomizer's only `throw` is unreachable: after a refill the bag
always holds seven pieces, so the pop always succeeds. -/
theorem bagNextE_isOk (s : BagState) : (bagNextE s).isOk = true := by
  unfold bagNextE
  by_cases h : s.bag.isEmpty
  · rw [if_pos h]
    dsimp only
    split
    · rename_i heq
      exfalso
      have hnil : (shuffleList PIECE_TYPES s.rng).1 = [] :=
        List.getLast?_eq_none_iff.mp heq
      have hlen := shuffleList_length PIECE_TYPES s.rng
      rw [hnil] at hlen
      simp [PIECE_TYPES] at hlen
    · rfl
  · rw [if_neg h]
    dsimp only
    split
    · rename_i heq
      exfalso
      have hnil : s.bag = [] := List.getLast?_eq_none_iff.mp heq
      rw [hnil] at h
      simp at h
    · rfl

/-- C2: every public operation of the embedded core is a total function.
The one `throw` in the sources (the randomizer's empty-bag pop) is
unreachable in every state, and precondition-violating calls — no active
piece, hold already used, invalid or empty inventory slot, no
collision-free kick — return `false` (`0` dropped cells for `hardDrop`)
without changing the simulation state. -/
theorem C2_no_exceptions :
    (∀ s : BagState, (bagNextE s).isOk = true) ∧
    (∀ g : Game, g.activePiece = none →
      g.moveHorizontal 1 = (false, g) ∧ g.moveHorizontal (-1) = (false, g) ∧
      g.rotate .clockwise = (false, g) ∧ g.rotate .counterclockwise = (false, g) ∧
      g.softDropStep = (false, g) ∧ g.hold = (false, g) ∧ g.hardDrop.1 = 0) ∧
    (∀ (g : Game) (p : ActivePiece), g.activePiece = some p → g.holdUsed = true →
      g.hold = (false, g)) ∧
    (∀ (g : Game) (i : Int), i < 0 ∨ (g.inventory.length : Int) ≤ i →
      g.useItem i = (false, g)) ∧
    (∀ (g : Game) (p : ActivePiece) (dir : RotationDirection),
      g.activePiece = some p →
      findKick g.board (rotatePiece p dir).1 (rotatePiece p dir).2 = none →
      g.rotate dir = (false, g)) := by
  refine ⟨bagNextE_isOk, ?_, ?_, ?_, ?_⟩
  · intro g h
    refine ⟨?_, ?_, ?_, ?_, ?_, ?_, ?_⟩
    · unfold Game.moveHorizontal Game.tryMove
      simp [h]
    · unfold Game.moveHorizontal Game.tryMove
      simp [h]
    · unfold Game.rotate
      simp [h]
    · unfold Game.rotate
      simp [h]
    · unfold Game.softDropStep
      simp [h]
    · unfold Game.hold
      simp [h]
    · unfold Game.hardDrop
      simp only [h]
      unfold Game.hardDropLoop Game.tryMove
      simp [h]
  · intro g p hap hu
    unfold Game.hold
    simp [hap, hu]
  · intro g i hi
    unfold Game.useItem
    rcases hi with hi | hi
    · rw [if_pos (Or.inl hi)]
    · rw [if_pos (Or.inr hi)]
  · intro g p dir hap hk
    unfold Game.rotate
    simp [hap, hk]

/-- Witness for C2 at concrete states exercising each clause. -/
theorem C2_no_exceptions_witness :
    (bagNextE ⟨[], demoRng⟩).isOk = true ∧
    demoNoPiece.moveHorizontal 1 = (false, demoNoPiece) ∧
    demoNoPiece.hold = (false, demoNoPiece) ∧
    demoHoldUsed.hold = (false, demoHoldUsed) ∧
    demoBase.useItem 0 = (false, demoBase) ∧
    demoWalled.rotate .clockwise = (false, demoWalled) := by
  refine ⟨C2_no_exceptions.1 _,
          (C2_no_exceptions.2.1 demoNoPiece rfl).1,
          (C2_no_exceptions.2.1 demoNoPiece rfl).2.2.2.2.2.1,
          C2_no_exceptions.2.2.1 demoHoldUsed demoT rfl rfl,
          C2_no_exceptions.2.2.2.1 demoBase 0 (Or.inr (by decide)),
          C2_no_exceptions.2.2.2.2 demoWalled demoTmid .clockwise rfl (by decide)⟩

/-! ### C10: hold-swap whose spawned piece collides -/

/-- C10: with an unused hold, an occupied hold slot and a held piece that
collides at its spawn position, `hold` returns false, sets game-over and
queues the event, discards the active piece, and leaves the hold slot
unchanged. -/
theorem C10_hold_swap_collision (g : Game) (cur : ActivePiece) (held : HeldPiece)
    (hap : g.activePiece = some cur) (hu : g.holdUsed = false)
    (hh : g.holdPiece = some held)
    (hc : hasCollision g.board (drawSpawnPiece held.type held.isSpecial g.rng).1
      none = true) :
    g.hold.1 = false ∧
    g.hold.2.isGameOver = true ∧
    g.hold.2.pendingEvents = g.pendingEvents ++ [.gameOver] ∧
    g.hold.2.activePiece = none ∧
    g.hold.2.holdPiece = some held := by
  unfold Game.hold
  simp [hap, hu, hh, hc]

/-- Witness for C10: a held O piece whose spawn cells are blocked. -/
theorem C10_hold_swap_collision_witness :
    demoHoldBlocked.hold.1 = false ∧
    demoHoldBlocked.hold.2.isGameOver = true ∧
    demoHoldBlocked.hold.2.pendingEvents =
      demoHoldBlocked.pendingEvents ++ [.gameOver] ∧
    demoHoldBlocked.hold.2.activePiece = none ∧
    demoHoldBlocked.hold.2.holdPiece = some ⟨.O, false⟩ :=
  C10_hold_swap_collision demoHoldBlocked demoT ⟨.O, false⟩ rfl rfl rfl (by decide)

/-! ### C1: the bomb item -/

/-- C1: using a bomb in slot `i` removes it, force-clears the bottom two
rows via `clearRows` (bottom-two non-empty in-range rows are replaced, with
empty rows inserted at the top), adds 200 points per row actually cleared,
and returns true.  (`clearRows` is modelled from the spec; it is absent from
the provided sources.) -/
theorem C1_bomb (g : Game) (i : Nat) (hi : g.inventory[i]? = some .bomb) :
    (g.useItem i).1 = true ∧
    (g.useItem i).2.inventory = g.inventory.eraseIdx i ∧
    (g.useItem i).2.board =
      (clearRows g.board [BOARD_TOTAL_HEIGHT - 1, BOARD_TOTAL_HEIGHT - 2]).1 ∧
    (g.useItem i).2.scoring.score = g.scoring.score +
      (clearRows g.board [BOARD_TOTAL_HEIGHT - 1, BOARD_TOTAL_HEIGHT - 2]).2 *
        ITEM_BONUS_POINTS := by
  have hlt : i < g.inventory.length := by
    have := List.getElem?_eq_some.mp hi
    exact this.1
  have hneg : ¬((i : Int) < 0 ∨ (g.inventory.length : Int) ≤ (i : Int)) := by
    push_neg
    constructor
    · positivity
    · exact_mod_cast hlt
  unfold Game.useItem
  rw [if_neg hneg]
  have htn : ((i : Int)).toNat = i := Int.toNat_natCast i
  rw [htn, hi]
  dsimp only
  rcases hcl : (clearRows g.board [BOARD_TOTAL_HEIGHT - 1, BOARD_TOTAL_HEIGHT - 2])
    with ⟨grid', n⟩
  by_cases hn : 0 < n
  · have hne : n * ITEM_BONUS_POINTS ≠ 0 := by
      unfold ITEM_BONUS_POINTS
      omega
    simp [hn, Scoring.addPoints, hne]
  · have hn0 : n = 0 := by omega
    simp [hn, hn0]

/-- Witness for C1 at a game holding one bomb over a board with one occupied
bottom-row cell. -/
theorem C1_bomb_witness :
    (demoBomb.useItem 0).1 = true ∧
    (demoBomb.useItem 0).2.inventory = demoBomb.inventory.eraseIdx 0 ∧
    (demoBomb.useItem 0).2.board =
      (clearRows demoBomb.board [BOARD_TOTAL_HEIGHT - 1, BOARD_TOTAL_HEIGHT - 2]).1 ∧
    (demoBomb.useItem 0).2.scoring.score = demoBomb.scoring.score +
      (clearRows demoBomb.board [BOARD_TOTAL_HEIGHT - 1, BOARD_TOTAL_HEIGHT - 2]).2 *
        ITEM_BONUS_POINTS :=
  C1_bomb demoBomb 0 rfl

/-! ### C8: clockwise/counterclockwise rotation round-trip -/

theorem movePiece_zero (p : ActivePiece) : movePiece p ⟨0, 0⟩ = p := by
  simp [movePiece]

/-- Every kick table starts with the (0,0) test, for both directions from
any legal rotation state. -/
theorem getKickTests_head (t : PieceType) (r : Nat) (hr : r < 4)
    (dir : RotationDirection) :
    ∃ rest, getKickTests t r (rotateRotation r dir) = ⟨0, 0⟩ :: rest := by
  cases t <;> cases dir <;> interval_cases r <;> exact ⟨_, rfl⟩

/-- A rotation whose first (0,0) kick test is collision-free succeeds with
the bare rotated piece. -/
theorem rotate_success (g : Game) (p : ActivePiece) (dir : RotationDirection)
    (hap : g.activePiece = some p)
    (hk : ∃ rest, (rotatePiece p dir).2 = ⟨0, 0⟩ :: rest)
    (hc : hasCollision g.board (rotatePiece p dir).1 none = false) :
    g.rotate dir =
      (true, ({ g with activePiece := some (rotatePiece p dir).1 } : Game
        ).refreshLockDelay) := by
  obtain ⟨rest, hk⟩ := hk
  unfold Game.rotate
  rw [hap]
  dsimp only
  rw [hk]
  unfold findKick
  rw [movePiece_zero]
  simp [hc]

/-- C8: rotating clockwise then counterclockwise, each succeeding on the
first (0,0) kick test, returns the piece to its original rotation, position
and block offsets. -/
theorem C8_rotate_roundtrip (g : Game) (p : ActivePiece)
    (hap : g.activePiece = some p) (hr : p.rotation < 4)
    (hb : p.blocks = (TETROMINO_SHAPES p.type).getD p.rotation [])
    (h1 : hasCollision g.board (rotatePiece p .clockwise).1 none = false)
    (h2 : hasCollision g.board
      (rotatePiece (rotatePiece p .clockwise).1 .counterclockwise).1 none = false) :
    (g.rotate .clockwise).1 = true ∧
    ((g.rotate .clockwise).2.rotate .counterclockwise).1 = true ∧
    (((g.rotate .clockwise).2.rotate .counterclockwise).2.activePiece.map
      fun q => (q.rotation, q.position, q.blocks)) =
      some (p.rotation, p.position, p.blocks) := by
  have hstep1 := rotate_success g p .clockwise hap
    (getKickTests_head p.type p.rotation hr .clockwise) h1
  set p1 := (rotatePiece p .clockwise).1 with hp1
  set g1 := (g.rotate .clockwise).2 with hg1
  have hg1e : g1 = ({ g with activePiece := some p1 } : Game).refreshLockDelay := by
    rw [hg1, hstep1]
  have hap1 : g1.activePiece = some p1 := by
    rw [hg1e, refreshLockDelay_activePiece]
  have hb1 : g1.board = g.board := by
    rw [hg1e, refreshLockDelay_board]
  have hp1rot : p1.rotation = (p.rotation + 1) % 4 := rfl
  have hr1 : p1.rotation < 4 := by
    rw [hp1rot]
    omega
  have hp1type : p1.type = p.type := rfl
  have hstep2 := rotate_success g1 p1 .counterclockwise hap1
    (getKickTests_head p1.type p1.rotation hr1 .counterclockwise)
    (by rw [hb1]; exact h2)
  set p2 := (rotatePiece p1 .counterclockwise).1 with hp2
  have hrot2 : p2.rotation = p.rotation := by
    have : p2.rotation = (p1.rotation + 3) % 4 := rfl
    rw [this, hp1rot]
    omega
  have hpos2 : p2.position = p.position := rfl
  have hb2 : p2.blocks = p.blocks := by
    have hsh : p2.blocks = (TETROMINO_SHAPES p.type).getD p2.rotation [] := rfl
    rw [hrot2] at hsh
    rw [hsh, ← hb]
  refine ⟨by rw [hstep1], by rw [hstep2], ?_⟩
  rw [hstep2]
  dsimp only
  rw [refreshLockDelay_activePiece]
  simp [hrot2, hpos2, hb2]

/-- Witness for C8: a T piece at spawn on the empty board. -/
theorem C8_rotate_roundtrip_witness :
    (demoBase.rotate .clockwise).1 = true ∧
    ((demoBase.rotate .clockwise).2.rotate .counterclockwise).1 = true ∧
    ((((demoBase.rotate .clockwise).2).rotate .counterclockwise).2.activePiece.map
      fun q => (q.rotation, q.position, q.blocks)) =
      some (demoT.rotation, demoT.position, demoT.blocks) :=
  C8_rotate_roundtrip demoBase demoT rfl (by decide) rfl (by decide) (by decide)

/-! ### C4: gravity advancement within one tick -/

theorem tryMove_down_success (g : Game) (p : ActivePiece)
    (hap : g.activePiece = some p)
    (hc : hasCollision g.board (movePiece p ⟨0, 1⟩) none = false) :
    g.tryMove ⟨0, 1⟩ true =
      (true, { g with activePiece := some (movePiece p ⟨0, 1⟩),
                      fallAccumulator := 0 }) := by
  unfold Game.tryMove
  rw [hap]
  dsimp only
  rw [hc]
  simp

theorem tryMove_down_blocked (g : Game) (p : ActivePiece)
    (hap : g.activePiece = some p)
    (hc : hasCollision g.board (movePiece p ⟨0, 1⟩) none = true) :
    g.tryMove ⟨0, 1⟩ true = (false, g) := by
  unfold Game.tryMove
  rw [hap]
  dsimp only
  rw [hc]
  simp

theorem gravityLoop_of_lt (g : Game) (h : g.fallAccumulator < 1) :
    g.gravityLoop = g := by
  unfold Game.gravityLoop
  rw [dif_neg (by exact not_le.mpr h)]

theorem gravityLoop_blocked (g : Game) (p : ActivePiece)
    (h : (1:ℚ) ≤ g.fallAccumulator) (hap : g.activePiece = some p)
    (hc : hasCollision g.board (movePiece p ⟨0, 1⟩) none = true) :
    g.gravityLoop = g.beginLockDelay false := by
  unfold Game.gravityLoop
  rw [dif_pos h]
  split
  · rename_i g2 heq
    rw [tryMove_down_blocked g p hap hc] at heq
    cases heq
    rfl
  · rename_i g2 heq
    rw [tryMove_down_blocked g p hap hc] at heq
    cases heq

theorem gravityLoop_success (g : Game) (p : ActivePiece)
    (h : (1:ℚ) ≤ g.fallAccumulator) (hap : g.activePiece = some p)
    (hc : hasCollision g.board (movePiece p ⟨0, 1⟩) none = false) :
    g.gravityLoop = { g with activePiece := some (movePiece p ⟨0, 1⟩),
                             fallAccumulator := 0 - 1 } := by
  unfold Game.gravityLoop
  rw [dif_pos h]
  split
  · rename_i g2 heq
    rw [tryMove_down_success g p hap hc] at heq
    cases heq
  · rename_i g2 heq
    rw [tryMove_down_success g p hap hc] at heq
    cases heq
    rw [gravityLoop_of_lt]
    norm_num

/-- C4 (amended): in one gravity update with an active piece, after adding
effectiveRate × deltaSeconds to the fall accumulator, at most one downward
move is attempted: below 1 nothing moves; at ≥ 1 with the cell below
blocked, the lock-delay timer starts (if not already running) and descent
stops; at ≥ 1 with the cell below free, the piece descends exactly one row
and the accumulator is reset to 0 and then decremented to −1 (the
fractional carry is discarded), ending descent for this frame. -/
theorem C4_gravity_one_row (g : Game) (p : ActivePiece) (d rate acc : ℚ)
    (hap : g.activePiece = some p)
    (hrate : rate = g.rules.gravityPerSecond *
      (if g.softDropActive then g.rules.softDropMultiplier else 1) *
      (1 + ((g.scoring.level : ℚ) - 1) * (8/100)) *
      (1 + ((g.scoring.score / SCORE_SPEED_INTERVAL : Nat) : ℚ) * SCORE_SPEED_STEP) *
      (if 0 < g.effects.freeze then 35/100 else 1))
    (hacc : acc = g.fallAccumulator + rate * d) :
    (acc < 1 → g.advanceGravity d = { g with fallAccumulator := acc }) ∧
    (1 ≤ acc → hasCollision g.board (movePiece p ⟨0, 1⟩) none = true →
      g.advanceGravity d =
        ({ g with fallAccumulator := acc } : Game).beginLockDelay false) ∧
    (1 ≤ acc → hasCollision g.board (movePiece p ⟨0, 1⟩) none = false →
      g.advanceGravity d =
        { g with activePiece := some (movePiece p ⟨0, 1⟩),
                 fallAccumulator := 0 - 1 }) := by
  have hstep : g.advanceGravity d =
      ({ g with fallAccumulator := acc } : Game).gravityLoop := by
    unfold Game.advanceGravity
    rw [hap]
    dsimp only
    rw [hap]
    dsimp only
    rw [hacc, hrate]
  refine ⟨?_, ?_, ?_⟩
  · intro hlt
    rw [hstep, gravityLoop_of_lt _ hlt]
  · intro hge hc
    rw [hstep]
    exact gravityLoop_blocked { g with fallAccumulator := acc } p hge hap hc
  · intro hge hc
    rw [hstep]
    exact gravityLoop_success { g with fallAccumulator := acc } p hge hap hc

/-- Witness for C4 at the demo game: one unit of accumulated gravity moves
the piece down one row and leaves the accumulator at −1. -/
theorem C4_gravity_one_row_witness :
    demoBase.advanceGravity (5/6) =
      { demoBase with activePiece := some (movePiece demoT ⟨0, 1⟩),
                      fallAccumulator := 0 - 1 } :=
  (C4_gravity_one_row demoBase demoT (5/6) (6/5) 1 rfl (by norm_num [demoBase, defaultRules, Scoring.init, SCORE_SPEED_INTERVAL, SCORE_SPEED_STEP]) (by norm_num [demoBase])).2.2
    (by norm_num) (by decide)

/-- C4 (counterexample to the claim as stated): from the fresh demo game a
tick of 5/3 seconds brings the fall accumulator to exactly 2, the two cells
below the piece are unobstructed, yet the piece descends one row, not two. -/
theorem C4_counterexample :
    (0 : ℚ) + (6/5 * 1 * (1 + (1 - 1) * (8/100)) * (1 + 0 * (3/100)) * 1) * (5/3)
      = 2 ∧
    hasCollision demoBase.board (movePiece demoT ⟨0, 1⟩) none = false ∧
    hasCollision demoBase.board (movePiece demoT ⟨0, 2⟩) none = false ∧
    ((demoBase.tick (5/3)).2.activePiece.map fun q => q.position.y) = some 1 ∧
    some (1 : Int) ≠ some (demoT.position.y + 2) := by
  refine ⟨by norm_num, by decide, by decide, ?_, by decide⟩
  have h1 : demoBase.updateActiveEffects (5/3) = demoBase := by
    unfold Game.updateActiveEffects
    norm_num [demoBase]
  have h2 : demoBase.updateSoftDropBonus (5/3) = demoBase := by
    unfold Game.updateSoftDropBonus
    simp [demoBase]
  have hred : demoBase.advanceGravity (5/3) =
      Game.gravityLoop { demoBase with fallAccumulator := 2 } := by
    unfold Game.advanceGravity
    norm_num [demoBase, defaultRules, Scoring.init, SCORE_SPEED_INTERVAL,
      SCORE_SPEED_STEP]
  have h3 : demoBase.advanceGravity (5/3) =
      { demoBase with activePiece := some (movePiece demoT ⟨0, 1⟩),
                      fallAccumulator := 0 - 1 } := by
    rw [hred]
    exact gravityLoop_success { demoBase with fallAccumulator := 2 } demoT
      (by norm_num) rfl (by decide)
  unfold Game.tick
  rw [if_pos (by decide : (!demoBase.isPaused ∧ !demoBase.isGameOver))]
  rw [h1, h2, h3]
  dsimp only
  decide

/-! ### The full-line sweep of the board -/

/-- The bottom-to-top sweep with re-examination computes: the grid keeps
its non-full rows in order, below as many fresh empty rows as there were
full rows, and records one cleared index per full row. -/
theorem clearLoop_spec (grid : Grid) (y1 : Nat) (cleared : List Nat)
    (hle : y1 ≤ grid.length)
    (hsuf : ∀ r ∈ grid.drop y1, isFullRow r = false) :
    (clearLoop grid y1 cleared).1 =
      List.replicate (grid.countP fun r => isFullRow r) emptyRow ++
        grid.filter (fun r => !isFullRow r) ∧
    (clearLoop grid y1 cleared).2.length =
      cleared.length + grid.countP fun r => isFullRow r := by
  induction grid, y1, cleared using clearLoop.induct with
  | case1 grid cleared =>
    have hnone : ∀ r ∈ grid, isFullRow r = false := by
      intro r hr
      exact hsuf r (by simpa using hr)
    have hcount : (grid.countP fun r => isFullRow r) = 0 := by
      rw [List.countP_eq_zero]
      intro r hr
      simp [hnone r hr]
    have hfilter : grid.filter (fun r => !isFullRow r) = grid := by
      rw [List.filter_eq_self]
      intro r hr
      simp [hnone r hr]
    simp [clearLoop, hcount, hfilter]
  | case2 grid cleared y hrow =>
    exfalso
    have : grid.length ≤ y := by
      by_contra hlt
      push_neg at hlt
      rw [List.getElem?_eq_getElem hlt] at hrow
      cases hrow
    omega
  | case3 grid cleared y row hrow hfull ih =>
    have hy : y < grid.length := (List.getElem?_eq_some.mp hrow).1
    have hrow' : grid[y] = row := by
      have := (List.getElem?_eq_some.mp hrow).2
      simpa using this
    have hdec : grid = grid.take y ++ row :: grid.drop (y + 1) := by
      conv_lhs => rw [← List.take_append_drop y grid,
        List.drop_eq_getElem_cons hy, hrow']
    have htl : (grid.take y).length = y := by
      rw [List.length_take]
      omega
    have herase : grid.eraseIdx y = grid.take y ++ grid.drop (y + 1) :=
      List.eraseIdx_eq_take_drop_succ grid y
    have hlen' : (emptyRow :: grid.eraseIdx y).length = grid.length := by
      rw [List.length_cons, herase, List.length_append, htl,
        List.length_drop]
      omega
    have hemp : isFullRow emptyRow = false := by decide
    have hdrop' : (emptyRow :: grid.eraseIdx y).drop (y + 1) =
        grid.drop (y + 1) := by
      rw [List.drop_succ_cons, herase, List.drop_left' htl]
    have hsuf' : ∀ r ∈ (emptyRow :: grid.eraseIdx y).drop (y + 1),
        isFullRow r = false := by
      intro r hr
      rw [hdrop'] at hr
      exact hsuf r hr
    have ih' := ih (by omega : y + 1 ≤ (emptyRow :: grid.eraseIdx y).length)
      hsuf'
    have hcount : grid.countP (fun r => isFullRow r) =
        ((emptyRow :: grid.eraseIdx y).countP fun r => isFullRow r) + 1 := by
      conv_lhs => rw [hdec]
      rw [List.countP_cons, herase, List.countP_append, List.countP_append,
        List.countP_cons]
      simp [hfull, hemp]
      omega
    have hfilter : (emptyRow :: grid.eraseIdx y).filter (fun r => !isFullRow r) =
        emptyRow :: (grid.filter fun r => !isFullRow r) := by
      conv_rhs => rw [hdec]
      rw [herase]
      simp [List.filter_append, hfull, hemp]
    rw [clearLoop]
    rw [hrow]
    dsimp only
    rw [dif_pos hfull]
    refine ⟨?_, ?_⟩
    · rw [ih'.1, hcount, hfilter]
      rw [List.replicate_succ']
      simp [List.append_assoc]
    · rw [ih'.2, hcount]
      simp
      omega
  | case4 grid cleared y row hrow hfull ih =>
    have hy : y < grid.length := (List.getElem?_eq_some.mp hrow).1
    have hrow' : grid[y] = row := by
      have := (List.getElem?_eq_some.mp hrow).2
      simpa using this
    have hsuf' : ∀ r ∈ grid.drop y, isFullRow r = false := by
      intro r hr
      rw [List.drop_eq_getElem_cons hy, hrow'] at hr
      rcases List.mem_cons.mp hr with hr | hr
      · rw [hr]
        simpa using hfull
      · exact hsuf r hr
    have ih' := ih (by omega) hsuf'
    rw [clearLoop]
    rw [hrow]
    dsimp only
    rw [dif_neg hfull]
    exact ih'

/-- board.ts `clearFullLines` in closed form. -/
theorem clearFullLines_spec (grid : Grid) :
    (clearFullLines grid).1 =
      List.replicate (grid.countP fun r => isFullRow r) emptyRow ++
        grid.filter (fun r => !isFullRow r) ∧
    (clearFullLines grid).2.length = grid.countP fun r => isFullRow r := by
  have h := clearLoop_spec grid grid.length [] le_rfl (by simp)
  exact ⟨h.1, by simpa using h.2⟩

theorem lockPiece_linesCleared (grid : Grid) (p : ActivePiece) :
    (lockPiece grid p).linesCleared =
      (writtenGrid grid p).countP fun r => isFullRow r := by
  unfold lockPiece
  exact (clearFullLines_spec (writtenGrid grid p)).2

theorem lockPiece_grid (grid : Grid) (p : ActivePiece) :
    (lockPiece grid p).grid =
      List.replicate ((writtenGrid grid p).countP fun r => isFullRow r)
        emptyRow ++ (writtenGrid grid p).filter (fun r => !isFullRow r) := by
  unfold lockPiece
  exact (clearFullLines_spec (writtenGrid grid p)).1

theorem lockPiece_sm (grid : Grid) (p : ActivePiece) :
    (lockPiece grid p).specialMultiplierApplied =
      (decide (0 < (writtenGrid grid p).countP fun r => isFullRow r) &&
        !(specialYRows p).isEmpty) := by
  unfold lockPiece
  dsimp only
  rw [(clearFullLines_spec (writtenGrid grid p)).2]

/-! ### Field-preservation facts for the spawning pipeline -/

theorem pushNext_preserve (g : Game) :
    g.pushNext.scoring = g.scoring ∧
    g.pushNext.pendingEvents = g.pendingEvents ∧
    g.pushNext.board = g.board ∧
    g.pushNext.activePiece = g.activePiece ∧
    g.pushNext.effects = g.effects ∧
    g.pushNext.inventory = g.inventory := by
  unfold Game.pushNext
  exact ⟨rfl, rfl, rfl, rfl, rfl, rfl⟩

theorem ensureQueueAux_preserve (n : Nat) (g : Game) :
    (Game.ensureQueueAux g n).scoring = g.scoring ∧
    (Game.ensureQueueAux g n).pendingEvents = g.pendingEvents ∧
    (Game.ensureQueueAux g n).board = g.board ∧
    (Game.ensureQueueAux g n).activePiece = g.activePiece ∧
    (Game.ensureQueueAux g n).effects = g.effects ∧
    (Game.ensureQueueAux g n).inventory = g.inventory := by
  induction n generalizing g with
  | zero => exact ⟨rfl, rfl, rfl, rfl, rfl, rfl⟩
  | succ n ih =>
    obtain ⟨a, b, c, d, e, f⟩ := ih g.pushNext
    obtain ⟨a', b', c', d', e', f'⟩ := pushNext_preserve g
    exact ⟨a.trans a', b.trans b', c.trans c', d.trans d', e.trans e', f.trans f'⟩

theorem ensureQueue_preserve (g : Game) (t : Nat) :
    (g.ensureQueue t).scoring = g.scoring ∧
    (g.ensureQueue t).pendingEvents = g.pendingEvents ∧
    (g.ensureQueue t).board = g.board ∧
    (g.ensureQueue t).activePiece = g.activePiece ∧
    (g.ensureQueue t).effects = g.effects ∧
    (g.ensureQueue t).inventory = g.inventory :=
  ensureQueueAux_preserve _ g

theorem awardRandomItem_preserve (g : Game) :
    g.awardRandomItem.scoring = g.scoring ∧
    g.awardRandomItem.pendingEvents = g.pendingEvents ∧
    g.awardRandomItem.board = g.board := by
  unfold Game.awardRandomItem
  split
  · exact ⟨rfl, rfl, rfl⟩
  · dsimp only
    split <;> exact ⟨rfl, rfl, rfl⟩

theorem spawnNextPiece_preserve (g : Game) :
    g.spawnNextPiece.2.scoring = g.scoring ∧
    (∃ t, g.spawnNextPiece.2.pendingEvents = g.pendingEvents ++ t ∧
      t.filter (fun e => e.isLock) = []) := by
  obtain ⟨hs, he, hb, hp, hef, hin⟩ :=
    ensureQueue_preserve g (PREVIEW_COUNT + 1)
  simp only [Game.spawnNextPiece]
  split
  · exact ⟨hs, [], by simp [he], rfl⟩
  · rename_i t rest hq
    split
    · exact ⟨hs, [.gameOver], by simp [he], rfl⟩
    · refine ⟨?_, ?_⟩
      · rw [(ensureQueue_preserve _ _).1]
        exact hs
      · refine ⟨[.spawn (drawSpawnPiece t
            (g.ensureQueue (PREVIEW_COUNT + 1)).rng.takeBool.1
            (g.ensureQueue (PREVIEW_COUNT + 1)).rng.takeBool.2).1], ?_, rfl⟩
        rw [(ensureQueue_preserve _ _).2.1]
        dsimp only
        rw [he]

/-! ### Scoring of a lock -/

/-- The score delta of `registerLineClear` for a positive count: the
special multiplier doubles the base only, and the external multiplier
scales the whole award.  (The combo bonus is `50 * previous combo` since
the combo has just been incremented.) -/
theorem registerLineClear_score (s : Scoring) (n : Nat) (sm : Bool) (m : Nat)
    (h : 1 ≤ n) :
    (s.registerLineClear n sm m).score =
      s.score + (SCORE_TABLE n * (if sm then 2 else 1) + 50 * s.combo) * m := by
  unfold Scoring.registerLineClear
  rw [if_neg (by omega)]
  dsimp only
  have hcb : (if 1 < s.combo + 1 then 50 * (s.combo + 1 - 1) else 0)
      = 50 * s.combo := by
    split <;> omega
  rw [hcb]

theorem ite_award_scoring (c : Prop) [Decidable c] (h : Game) :
    (if c then h.awardRandomItem else h).scoring = h.scoring := by
  split
  · exact (awardRandomItem_preserve h).1
  · rfl

theorem ite_spawn_finish_scoring (h : Game) :
    (if h.spawnNextPiece.1 = true then h.spawnNextPiece.2
      else { h.spawnNextPiece.2 with
             isGameOver := true
             pendingEvents := h.spawnNextPiece.2.pendingEvents ++ [.gameOver] }
      ).scoring = h.scoring := by
  split
  · exact (spawnNextPiece_preserve h).1
  · exact (spawnNextPiece_preserve h).1

/-- `lockActivePiece` feeds the line-clear result and the boost flag to
`registerLineClear`, and nothing later in the lock touches the score. -/
theorem lockActivePiece_scoring (g : Game) (p : ActivePiece)
    (hap : g.activePiece = some p) :
    g.lockActivePiece.scoring =
      g.scoring.registerLineClear (lockPiece g.board p).linesCleared
        (lockPiece g.board p).specialMultiplierApplied
        (if (0:ℚ) < g.effects.boost then 2 else 1) := by
  unfold Game.lockActivePiece
  rw [hap]
  dsimp only
  rw [ite_spawn_finish_scoring]
  dsimp only
  rw [ite_award_scoring]

/-- The full score delta of a line-clearing lock. -/
theorem lockActivePiece_score (g : Game) (p : ActivePiece)
    (hap : g.activePiece = some p)
    (h1 : 1 ≤ (lockPiece g.board p).linesCleared) :
    g.lockActivePiece.scoring.score =
      g.scoring.score +
        (SCORE_TABLE (lockPiece g.board p).linesCleared *
            (if (lockPiece g.board p).specialMultiplierApplied then 2 else 1) +
          50 * g.scoring.combo) *
        (if (0:ℚ) < g.effects.boost then 2 else 1) := by
  rw [lockActivePiece_scoring g p hap,
    registerLineClear_score _ _ _ _ h1]

/-! ### C3: points awarded by a line-clearing lock -/

/-- C3 (amended): whenever a lock clears n ≥ 1 lines, the points awarded
equal (base(n) × 2-if-special + comboBonus) × 2-if-boost, i.e. the special
multiplier doubles the base only (not base plus combo bonus), and the boost
effect doubles the whole lock award; comboBonus is 50 × previous combo. -/
theorem C3_lock_award (g : Game) (p : ActivePiece)
    (hap : g.activePiece = some p)
    (h1 : 1 ≤ (lockPiece g.board p).linesCleared) :
    g.lockActivePiece.scoring.score =
      g.scoring.score +
        (SCORE_TABLE (lockPiece g.board p).linesCleared *
            (if (lockPiece g.board p).specialMultiplierApplied then 2 else 1) +
          50 * g.scoring.combo) *
        (if (0:ℚ) < g.effects.boost then 2 else 1) :=
  lockActivePiece_score g p hap h1

/-- Witness for C3 at the special one-line-clear demo. -/
theorem C3_lock_award_witness :
    demoSpecialLock.lockActivePiece.scoring.score =
      demoSpecialLock.scoring.score +
        (SCORE_TABLE (lockPiece demoSpecialLock.board demoOS).linesCleared *
            (if (lockPiece demoSpecialLock.board demoOS).specialMultiplierApplied
              then 2 else 1) +
          50 * demoSpecialLock.scoring.combo) *
        (if (0:ℚ) < demoSpecialLock.effects.boost then 2 else 1) :=
  C3_lock_award demoSpecialLock demoOS rfl
    (by rw [lockPiece_linesCleared]; decide)

/-- C3 (counterexample to the claim as stated): a special one-line clear at
combo 2 awards (100 × 2) + 50 = 250 points, while the claimed formula
(100 + 50) × 2 gives 300. -/
theorem C3_counterexample :
    demoSpecialLock.lockActivePiece.scoring.score = 250 ∧
    (SCORE_TABLE 1 + 50 * (demoSpecialLock.scoring.combo + 1 - 1)) * 2 = 300 ∧
    (250 : Nat) ≠ 300 := by
  refine ⟨?_, by decide, by decide⟩
  have hl : (lockPiece demoSpecialLock.board demoOS).linesCleared = 1 := by
    rw [lockPiece_linesCleared]
    decide
  have hsm : (lockPiece demoSpecialLock.board demoOS).specialMultiplierApplied
      = true := by
    rw [lockPiece_sm]
    decide
  have h := lockActivePiece_score demoSpecialLock demoOS rfl (by rw [hl])
  rw [hl, hsm] at h
  rw [h]
  norm_num [demoSpecialLock, demoBase, Scoring.init, SCORE_TABLE]

/-! ### C6: locking and full-row removal -/

theorem ite_award_events (c : Prop) [Decidable c] (h : Game) :
    (if c then h.awardRandomItem else h).pendingEvents = h.pendingEvents := by
  split
  · exact (awardRandomItem_preserve h).2.1
  · rfl

theorem spawn_finish_events_of (h : Game) (E : List GameEvent)
    (hE : h.pendingEvents = E) :
    ∃ t, (if h.spawnNextPiece.1 = true then h.spawnNextPiece.2
      else { h.spawnNextPiece.2 with
             isGameOver := true
             pendingEvents := h.spawnNextPiece.2.pendingEvents ++ [.gameOver] }
      ).pendingEvents = E ++ t ∧ t.filter (fun e => e.isLock) = [] := by
  obtain ⟨t, ht, hf⟩ := (spawnNextPiece_preserve h).2
  rw [hE] at ht
  split
  · exact ⟨t, ht, hf⟩
  · refine ⟨t ++ [.gameOver], ?_, ?_⟩
    · dsimp only
      rw [ht, List.append_assoc]
    · rw [List.filter_append, hf]
      rfl

/-- A lock appends exactly one lock event (spawn may add a spawn or
game-over event after it, never a lock). -/
theorem lockActivePiece_events (g : Game) (p : ActivePiece)
    (hap : g.activePiece = some p) :
    ∃ t, g.lockActivePiece.pendingEvents =
        (g.pendingEvents ++
          [.lock (lockPiece g.board p).linesCleared
            (lockPiece g.board p).specialMultiplierApplied]) ++ t ∧
      t.filter (fun e => e.isLock) = [] := by
  unfold Game.lockActivePiece
  rw [hap]
  dsimp only
  refine spawn_finish_events_of _ _ ?_
  dsimp only
  rw [ite_award_events]

/-- C6: `clearFullLines` removes exactly the full rows in one bottom-to-top
pass, keeping the remaining rows in order below fresh empty rows; and a
placement completing 4 rows produces exactly one lock event with
`linesCleared = 4` and a base score award of 800 before multipliers. -/
theorem C6_lock_four_lines :
    (∀ grid : Grid,
      (clearFullLines grid).1 =
        List.replicate (grid.countP fun r => isFullRow r) emptyRow ++
          grid.filter (fun r => !isFullRow r) ∧
      (clearFullLines grid).2.length = grid.countP fun r => isFullRow r) ∧
    (∀ (g : Game) (p : ActivePiece), g.activePiece = some p →
      (lockPiece g.board p).linesCleared = 4 →
      (g.lockActivePiece.pendingEvents.drop g.pendingEvents.length).filter
          (fun e => e.isLock) =
        [.lock 4 (lockPiece g.board p).specialMultiplierApplied] ∧
      ((lockPiece g.board p).specialMultiplierApplied = false →
        g.scoring.combo = 0 → g.effects.boost = 0 →
        g.lockActivePiece.scoring.score = g.scoring.score + 800)) := by
  refine ⟨clearFullLines_spec, ?_⟩
  intro g p hap h4
  constructor
  · obtain ⟨t, ht, hf⟩ := lockActivePiece_events g p hap
    rw [ht, h4, List.append_assoc, List.drop_left, List.filter_append, hf]
    rfl
  · intro hsm hcombo hboost
    rw [lockActivePiece_score g p hap (by rw [h4]; norm_num)]
    rw [h4, hsm, hcombo, hboost]
    norm_num [SCORE_TABLE]

/-- Witness for C6 at the four-line I-piece demo. -/
theorem C6_lock_four_lines_witness :
    ((clearFullLines demoFourLines.board).1 =
      List.replicate (demoFourLines.board.countP fun r => isFullRow r)
        emptyRow ++ demoFourLines.board.filter (fun r => !isFullRow r)) ∧
    (demoFourLines.lockActivePiece.pendingEvents.drop
        demoFourLines.pendingEvents.length).filter (fun e => e.isLock) =
      [.lock 4 (lockPiece demoFourLines.board demoI4).specialMultiplierApplied] ∧
    demoFourLines.lockActivePiece.scoring.score =
      demoFourLines.scoring.score + 800 := by
  have h4 : (lockPiece demoFourLines.board demoI4).linesCleared = 4 := by
    rw [lockPiece_linesCleared]
    decide
  have hsm : (lockPiece demoFourLines.board demoI4).specialMultiplierApplied
      = false := by
    rw [lockPiece_sm]
    decide
  have h := C6_lock_four_lines.2 demoFourLines demoI4 rfl h4
  exact ⟨(C6_lock_four_lines.1 demoFourLines.board).1, h.1, h.2 hsm rfl rfl⟩

/-! ### C7: the seven-bag randomizer -/

theorem set_getElem_self_eq {α : Type} (l : List α) (i : Nat)
    (hi : i < l.length) : l.set i l[i] = l := by
  apply List.ext_getElem
  · simp
  · intro k h1 h2
    rw [List.getElem_set]
    split
    · rename_i he
      subst he
      rfl
    · rfl

theorem count_set_aux {α : Type} [DecidableEq α] (l : List α) (i : Nat)
    (hi : i < l.length) (b a : α) :
    (l.set i b).count a + (if l[i] == a then 1 else 0) =
      l.count a + (if b == a then 1 else 0) := by
  rw [List.set_eq_take_cons_drop b hi]
  conv_rhs => rw [← List.take_append_drop i l, List.drop_eq_getElem_cons hi]
  rw [List.count_append, List.count_append, List.count_cons, List.count_cons]
  split_ifs <;> omega

theorem listSwap_perm {α : Type} [DecidableEq α] (l : List α) (i j : Nat) :
    (listSwap l i j).Perm l := by
  unfold listSwap
  split
  · rename_i a b hia hjb
    have hi : i < l.length := (List.getElem?_eq_some.mp hia).1
    have hj : j < l.length := (List.getElem?_eq_some.mp hjb).1
    have ha : l[i] = a := by simpa using (List.getElem?_eq_some.mp hia).2
    have hb : l[j] = b := by simpa using (List.getElem?_eq_some.mp hjb).2
    by_cases hij : i = j
    · subst hij
      have hab : a = b := by rw [← ha, hb]
      subst hab
      rw [List.set_set, ← ha, set_getElem_self_eq]
    · rw [List.perm_iff_count]
      intro x
      have h1 := count_set_aux l i hi b x
      have hj' : j < (l.set i b).length := by simpa using hj
      have h2 := count_set_aux (l.set i b) j hj' a x
      have hgs : (l.set i b)[j] = l[j] := by
        rw [List.getElem_set]
        split
        · rename_i he
          exact absurd he hij
        · rfl
      rw [hgs, hb] at h2
      rw [ha] at h1
      split_ifs at h1 h2 <;> omega
  · exact List.Perm.refl l

theorem fyLoop_perm {α : Type} [DecidableEq α] (k : Nat) (l : List α)
    (r : Rng) : ((fyLoop l k r).1).Perm l := by
  induction k generalizing l r with
  | zero => exact List.Perm.refl l
  | succ k ih => exact (ih _ _).trans (listSwap_perm l (k + 1) _)

theorem shuffleList_perm {α : Type} [DecidableEq α] (l : List α) (r : Rng) :
    ((shuffleList l r).1).Perm l :=
  fyLoop_perm _ l r

theorem bagNext_concat (l : List PieceType) (a : PieceType) (r : Rng) :
    bagNext ⟨l ++ [a], r⟩ = (a, ⟨l, r⟩) := by
  unfold bagNext bagNextE
  rw [if_neg (by simp)]
  dsimp only
  rw [List.getLast?_concat]
  dsimp only
  rw [List.dropLast_concat]

theorem bagRun_drain (bag : List PieceType) (r : Rng) (h : bag ≠ []) :
    bagRun bag.length ⟨bag, r⟩ = (bag.reverse, ⟨[], r⟩) := by
  induction bag using List.reverseRecOn with
  | nil => exact absurd rfl h
  | append_singleton l a ih =>
    have hlen : (l ++ [a]).length = l.length + 1 := by simp
    rw [hlen, bagRun, bagNext_concat]
    dsimp only
    rcases Decidable.em (l = []) with hl | hl
    · subst hl
      simp [bagRun]
    · rw [ih hl, List.reverse_concat]

theorem bagRun_refill (r : Rng) :
    bagRun 7 ⟨[], r⟩ = ((shuffleList PIECE_TYPES r).1.reverse,
      ⟨[], (shuffleList PIECE_TYPES r).2⟩) := by
  have hlen : (shuffleList PIECE_TYPES r).1.length = 7 := by
    rw [shuffleList_length]
    rfl
  obtain hnil | ⟨l, a, hc⟩ := (shuffleList PIECE_TYPES r).1.eq_nil_or_concat
  · rw [hnil] at hlen
    simp at hlen
  · rw [List.concat_eq_append] at hc
    have hfirst : bagNext ⟨[], r⟩ = (a, ⟨l, (shuffleList PIECE_TYPES r).2⟩) := by
      unfold bagNext bagNextE
      rw [if_pos (by rfl)]
      dsimp only
      rw [hc, List.getLast?_concat]
      dsimp only
      rw [List.dropLast_concat]
    have hl6 : l.length = 6 := by
      rw [hc] at hlen
      simp at hlen
      omega
    have hlne : l ≠ [] := by
      intro he
      rw [he] at hl6
      simp at hl6
    rw [show (7 : Nat) = 6 + 1 from rfl, bagRun, hfirst]
    dsimp only
    rw [← hl6, bagRun_drain l _ hlne, hc, List.reverse_concat]

theorem bagRun_add (m n : Nat) (s : BagState) :
    bagRun (m + n) s = ((bagRun m s).1 ++ (bagRun n (bagRun m s).2).1,
      (bagRun n (bagRun m s).2).2) := by
  induction m generalizing s with
  | zero => simp [bagRun]
  | succ m ih =>
    rw [show m + 1 + n = (m + n) + 1 from by omega, bagRun, bagRun]
    dsimp only
    rw [ih]
    rfl

theorem bagRun_length (n : Nat) (s : BagState) :
    ((bagRun n s).1).length = n := by
  induction n generalizing s with
  | zero => rfl
  | succ n ih =>
    rw [bagRun]
    dsimp only
    rw [List.length_cons, ih]

theorem bagRun_7n_state (n : Nat) (r : Rng) :
    ∃ r2, (bagRun (7 * n) ⟨[], r⟩).2 = ⟨[], r2⟩ := by
  induction n with
  | zero => exact ⟨r, rfl⟩
  | succ n ih =>
    obtain ⟨r2, h2⟩ := ih
    rw [show 7 * (n + 1) = 7 * n + 7 from by ring, bagRun_add, h2,
      bagRun_refill]
    exact ⟨(shuffleList PIECE_TYPES r2).2, rfl⟩

/-- C7: counting draws from `reset`, every aligned run of 7 consecutive
`next()` results is a permutation of the 7 piece types — none skipped, none
duplicated. -/
theorem C7_seven_bag (n : Nat) (r : Rng) :
    ((bagRun (7 * n + 7) ⟨[], r⟩).1.drop (7 * n)).Perm PIECE_TYPES := by
  obtain ⟨r2, h2⟩ := bagRun_7n_state n r
  rw [bagRun_add (7 * n) 7 ⟨[], r⟩, h2, bagRun_refill]
  dsimp only
  rw [List.drop_left' (bagRun_length (7 * n) ⟨[], r⟩)]
  exact (List.reverse_perm _).trans (shuffleList_perm _ r2)

end Tetorisu
